import Mathlib

/-!
Verification of the s3nb contents manager (`src/s3nb/ipy3.py`).

The Python source is shallowly embedded below.  The S3 bucket is modelled as
an association list from key names to stored objects; every operation of the
`S3ContentsManager` class that the claims mention is translated into a pure
Lean function over that store.  Exceptions (`tornado.web.HTTPError`,
`NotImplementedError`, and uncaught Python errors such as `TypeError` /
`ValueError` / boto client errors) are modelled with an `Except Err` result;
state-changing operations additionally return the store that results from the
call (unchanged when the operation raised before writing).

Python string primitives used by the source (`strip`, `split`, `rsplit`,
`replace`, `startswith`, `endswith`, `datetime.strptime`) are implemented on
`List Char` with Python's semantics and wrapped for `String`.
-/

namespace S3nb

/-- Python `s.startswith(pre)`. -/
def pyStartsWith (s pre : String) : Bool := pre.data.isPrefixOf s.data

/-- Python `s.endswith(suf)`. -/
def pyEndsWith (s suf : String) : Bool := suf.data.isSuffixOf s.data

/-- Python `s.strip(chars)`: removes every leading and trailing character that
occurs in `chars` (the argument is a set of characters, not a substring). -/
def pyStrip (s chars : String) : String :=
  String.mk (((s.data.dropWhile (fun c => chars.data.contains c)).reverse.dropWhile
      (fun c => chars.data.contains c)).reverse)

/-- Split a character list at the first occurrence of `sep`: returns the part
before and the part after that occurrence, or `none` when `sep` does not
occur.  (For empty `sep` Python raises; see the callers.) -/
def splitOnceAux (sep : List Char) : List Char → Option (List Char × List Char)
  | [] => none
  | c :: cs =>
    if sep.isPrefixOf (c :: cs) then some ([], (c :: cs).drop sep.length)
    else
      match splitOnceAux sep cs with
      | some (b, p) => some (c :: b, p)
      | none => none

/-- Python `s.split(sep, 1)` for nonempty `sep`: a two-element list when `sep`
occurs in `s`, otherwise the one-element list `[s]`. -/
def pySplitOnce (s sep : String) : List String :=
  match splitOnceAux sep.data s.data with
  | some (b, p) => [String.mk b, String.mk p]
  | none => [s]

/-- Split a character list at the last occurrence of `sep` (the rightmost
split Python `rsplit` performs first). -/
def rsplitOnceL (sep l : List Char) : Option (List Char × List Char) :=
  match splitOnceAux sep.reverse l.reverse with
  | some (b, p) => some (p.reverse, b.reverse)
  | none => none

/-- Python `s.rsplit(sep, 1)[-1]`: the part after the last occurrence of
`sep`, or `s` itself when `sep` does not occur. -/
def pyRsplitLast (s sep : String) : String :=
  match rsplitOnceL sep.data s.data with
  | some (_, b) => String.mk b
  | none => s

/-- Python `s.rsplit(sep, 2)`: at most two splits, taken from the right. -/
def pyRsplit2 (s sep : String) : List String :=
  match rsplitOnceL sep.data s.data with
  | none => [s]
  | some (a, b) =>
    match rsplitOnceL sep.data a with
    | none => [String.mk a, String.mk b]
    | some (a1, a2) => [String.mk a1, String.mk a2, String.mk b]

/-- Python `l[-2]`: the second-to-last element; `none` models the `IndexError`
raised when the list has fewer than two elements. -/
def idxFromEnd2 (l : List String) : Option String :=
  if l.length < 2 then none else l[l.length - 2]?

/-- Left-to-right non-overlapping replacement of a nonempty pattern, exactly
as Python `str.replace` scans.  The `fuel` argument makes the recursion
structural; every step consumes at least one character, so fuel equal to the
input length is always enough. -/
def pyReplaceAux (pat repl : List Char) : Nat → List Char → List Char
  | _, [] => []
  | 0, l => l
  | fuel + 1, a :: l =>
    if pat.isPrefixOf (a :: l) then
      repl ++ pyReplaceAux pat repl fuel ((a :: l).drop pat.length)
    else a :: pyReplaceAux pat repl fuel l

/-- Python `s.replace(old, new)` for nonempty `old` (the source only calls it
with the key prefix, which always ends with the delimiter and hence is
nonempty; empty `old` is mapped to the identity here). -/
def pyReplace (s old new : String) : String :=
  if old.data = [] then s
  else String.mk (pyReplaceAux old.data new.data s.data.length s.data)

/-- Python `s.split(c)` for a single separator character: the full list of
delimiter segments.  This is the reference notion of "delimiter segment" used
to state the claims about model names. -/
def splitAllChar (c : Char) : List Char → List (List Char)
  | [] => [[]]
  | a :: as =>
    if a = c then [] :: splitAllChar c as
    else
      match splitAllChar c as with
      | [] => [[a]]
      | s :: ss => (a :: s) :: ss

/-- Result of Python `datetime.strptime`: a naive timestamp (the source
attaches `tz.UTC` to it immediately after parsing). -/
structure PyDateTime where
  year : Nat
  month : Nat
  day : Nat
  hour : Nat
  minute : Nat
  second : Nat
deriving DecidableEq

/-- Case-insensitive character comparison; CPython compiles the strptime
format to a case-insensitive regular expression. -/
def lowerEq (a b : Char) : Bool := a.toLower == b.toLower

/-- Match a literal word case-insensitively, returning the rest of the input. -/
def matchCI : List Char → List Char → Option (List Char)
  | [], inp => some inp
  | _ :: _, [] => none
  | w :: ws, i :: ir => if lowerEq w i then matchCI ws ir else none

/-- Try a list of named alternatives (weekday or month names) in order. -/
def matchAlts (alts : List (String × Nat)) (inp : List Char) : Option (Nat × List Char) :=
  match alts with
  | [] => none
  | (w, v) :: rest =>
    match matchCI w.data inp with
    | some r => some (v, r)
    | none => matchAlts rest inp

def weekdayNames : List (String × Nat) :=
  [("Mon", 0), ("Tue", 1), ("Wed", 2), ("Thu", 3), ("Fri", 4), ("Sat", 5), ("Sun", 6)]

def monthNames : List (String × Nat) :=
  [("Jan", 1), ("Feb", 2), ("Mar", 3), ("Apr", 4), ("May", 5), ("Jun", 6),
   ("Jul", 7), ("Aug", 8), ("Sep", 9), ("Oct", 10), ("Nov", 11), ("Dec", 12)]

def digit? (c : Char) : Option Nat :=
  if c.isDigit then some (c.toNat - 48) else none

/-- Parse a one- or two-digit number the way CPython's strptime regexes do:
a two-digit reading is accepted when it lies in `[lo2, hi2]`, otherwise a
single digit in `[lo1, hi1]` is accepted. -/
def parseNum2 (lo2 hi2 lo1 hi1 : Nat) (inp : List Char) : Option (Nat × List Char) :=
  match inp with
  | a :: b :: rest =>
    match digit? a, digit? b with
    | some x, some y =>
      let v := 10 * x + y
      if lo2 ≤ v ∧ v ≤ hi2 then some (v, rest)
      else if lo1 ≤ x ∧ x ≤ hi1 then some (x, b :: rest)
      else none
    | some x, none => if lo1 ≤ x ∧ x ≤ hi1 then some (x, b :: rest) else none
    | none, _ => none
  | a :: [] =>
    match digit? a with
    | some x => if lo1 ≤ x ∧ x ≤ hi1 then some (x, []) else none
    | none => none
  | [] => none

/-- Parse exactly four digits (strptime `%Y`). -/
def parse4 (inp : List Char) : Option (Nat × List Char) :=
  match inp with
  | a :: b :: c :: d :: rest =>
    match digit? a, digit? b, digit? c, digit? d with
    | some x, some y, some z, some w => some (1000 * x + 100 * y + 10 * z + w, rest)
    | _, _, _, _ => none
  | _ => none

/-- Recursive matcher for the strptime directives actually used by the two
format constants of the source (`%a %d %b %Y %H %M %S` and literal text).
The parsed weekday is discarded, as CPython does; calendar validation of the
day against the month (CPython raises for e.g. Feb 30) is not modelled — the
claims only exercise valid dates. -/
def strptimeAux : List Char → List Char → PyDateTime → Option PyDateTime
  | [], inp, acc => if inp.isEmpty then some acc else none
  | '%' :: d :: fr, inp, acc =>
    match d with
    | 'a' =>
      match matchAlts weekdayNames inp with
      | some (_, rest) => strptimeAux fr rest acc
      | none => none
    | 'b' =>
      match matchAlts monthNames inp with
      | some (m, rest) => strptimeAux fr rest { acc with month := m }
      | none => none
    | 'd' =>
      match parseNum2 1 31 1 9 inp with
      | some (v, rest) => strptimeAux fr rest { acc with day := v }
      | none => none
    | 'm' =>
      match parseNum2 1 12 1 9 inp with
      | some (v, rest) => strptimeAux fr rest { acc with month := v }
      | none => none
    | 'Y' =>
      match parse4 inp with
      | some (v, rest) => strptimeAux fr rest { acc with year := v }
      | none => none
    | 'H' =>
      match parseNum2 0 23 0 9 inp with
      | some (v, rest) => strptimeAux fr rest { acc with hour := v }
      | none => none
    | 'M' =>
      match parseNum2 0 59 0 9 inp with
      | some (v, rest) => strptimeAux fr rest { acc with minute := v }
      | none => none
    | 'S' =>
      match parseNum2 0 61 0 9 inp with
      | some (v, rest) => strptimeAux fr rest { acc with second := v }
      | none => none
    | _ => none
  | c :: fr, i :: ir, acc => if lowerEq c i then strptimeAux fr ir acc else none
  | _ :: _, [], _ => none

/-- Python `datetime.datetime.strptime(date_string, fmt)`, restricted to the
directives the source's two format constants use.  `none` models the
`ValueError` raised on a mismatch (including trailing unconverted data). -/
def strptime (date_string fmt : String) : Option PyDateTime :=
  strptimeAux fmt.data date_string.data
    { year := 1900, month := 1, day := 1, hour := 0, minute := 0, second := 0 }

/-- Source line 15: `S3_TIMEFORMAT_GET_KEY = '%a, %d %b %Y %H:%M:%S GMT'`. -/
def S3_TIMEFORMAT_GET_KEY : String := "%a, %d %b %Y %H:%M:%S GMT"

/-- Source line 16: `S3_TIMEFORMAT_BUCKET_LIST = '%Y-%m-%dT%H:%M:%S.000Z'`. -/
def S3_TIMEFORMAT_BUCKET_LIST : String := "%Y-%m-%dT%H:%M:%S.000Z"

/-- The configuration fixed at construction.  `s3_prefix_` embeds the source
attribute `s3_prefix` (trailing underscore to avoid a Lean notation keyword);
`__init__` guarantees it ends with the delimiter. -/
structure S3Config where
  s3_prefix_ : String
  s3_key_delimiter : String
deriving DecidableEq

/-- A stored S3 object: the Last-Modified metadata string the service reports
and the (opaque) notebook payload. -/
structure S3Object where
  last_modified : String
  content : String
deriving DecidableEq

/-- The bucket, modelled as an association list from key names to objects. -/
abbrev Store := List (String × S3Object)

/-- boto `bucket.get_key(name)`: exact-name lookup, `None` when absent. -/
def get_key (store : Store) (k : String) : Option S3Object :=
  (store.find? (fun e => e.1 == k)).map (fun e => e.2)

/-- boto `key.set_contents_from_file` / `copy_key` target: write `v` at `k`,
overwriting any existing object. -/
def set_key (store : Store) (k : String) (v : S3Object) : Store :=
  store.filter (fun e => e.1 != k) ++ [(k, v)]

/-- boto `bucket.delete_key(name)`: unconditional removal, no error when the
key is absent. -/
def delete_key (store : Store) (k : String) : Store :=
  store.filter (fun e => e.1 != k)

/-- One result of boto `bucket.list(prefix, delimiter)`: either a real key
(with metadata) or a synthesized common prefix, which has a `name` but no
`last_modified` / contents attribute (`none` models the missing attribute). -/
structure ListEntry where
  name : String
  last_modified : Option String
  content : Option String
deriving DecidableEq

/-- boto `bucket.list(pfx, delim)`: one-level delimited listing.  Keys under
`pfx` whose remainder contains the delimiter are collapsed into a common
prefix (reported once); the others are returned as key entries.  The service
additionally sorts results; no claim depends on the order, so store order is
kept. -/
def bucket_list (store : Store) (pfx delim : String) : List ListEntry :=
  store.foldl (fun acc kv =>
    if pyStartsWith kv.1 pfx then
      let rest := String.mk (kv.1.data.drop pfx.data.length)
      if delim ≠ "" then
        match splitOnceAux delim.data rest.data with
        | some (b, _) =>
          let p := pfx ++ String.mk b ++ delim
          if acc.any (fun e => e.name == p) then acc
          else acc ++ [{ name := p, last_modified := none, content := none }]
        | none =>
          acc ++ [{ name := kv.1, last_modified := some kv.2.last_modified,
                    content := some kv.2.content }]
      else
        acc ++ [{ name := kv.1, last_modified := some kv.2.last_modified,
                  content := some kv.2.content }]
    else acc) []

/-- The model dictionary built by `_s3_key_dir_to_model` and
`_s3_key_notebook_to_model` (its `content` entry is always `None` there, so
it is left implicit; `message` models the optional `model['message']` entry,
absent unless `save` adds it). -/
structure FlatModel where
  name : String
  path : String
  last_modified : Option PyDateTime
  created : Option PyDateTime
  type : String
  mimetype : Option String
  writable : Bool
  format : Option String
  message : Option String
deriving DecidableEq

/-- The `content` entry of a model returned by `get`: a notebook document or
a one-level directory listing. -/
inductive MContent where
  | nb (doc : String)
  | listing (entries : List FlatModel)
deriving DecidableEq

/-- A full model as returned by `get` / `save`. -/
structure Model where
  base : FlatModel
  content : Option MContent
deriving DecidableEq

/-- The model dictionary passed to `save`: `none` in `type` / `content`
models the dictionary key being absent.  `message` is the value
`model.get('message', None)` reads after `validate_notebook_model` ran (host
validation may have set it; it is part of the input state here). -/
structure InModel where
  type : Option String
  content : Option String
  message : Option String
deriving DecidableEq

/-- Failure of an operation: `http` is `tornado.web.HTTPError(status, msg)`,
`notImplemented` is `NotImplementedError`, and `crash` stands for an uncaught
Python exception (`TypeError`, `ValueError`, `AttributeError`, boto errors). -/
inductive Err where
  | http (status : Nat) (msg : String)
  | notImplemented (msg : String)
  | crash (msg : String)
deriving DecidableEq

deriving instance DecidableEq for Except

/-- Lines 22-26, `_parse_s3_uri`: `none` models the raised exception for a
uri that does not start with the scheme token; otherwise the result of
`uri[5:].split(delimiter, 1)`. -/
def parse_s3_uri (uri : String) (delimiter : String) : Option (List String) :=
  if pyStartsWith uri "s3://" then some (pySplitOnce (String.mk (uri.data.drop 5)) delimiter)
  else none

/-- Lines 28-29, `_path_to_s3_key`. -/
def path_to_s3_key (cfg : S3Config) (path : String) : String :=
  cfg.s3_prefix_ ++ pyStrip path cfg.s3_key_delimiter

/-- Lines 31-36, `_path_to_s3_key_dir`: the delimiter is appended only for a
non-empty path, to avoid a doubled delimiter at the root. -/
def path_to_s3_key_dir (cfg : S3Config) (path : String) : String :=
  if path ≠ "" then path_to_s3_key cfg path ++ cfg.s3_key_delimiter
  else path_to_s3_key cfg path

/-- Lines 38-52, `_s3_key_dir_to_model`; `now` is the wall clock read by
`datetime.datetime.utcnow()`.  `none` models the `IndexError` raised by
`rsplit(..., 2)[-2]` when the key contains no delimiter. -/
def s3_key_dir_to_model (cfg : S3Config) (now : PyDateTime) (k : ListEntry) :
    Option FlatModel :=
  (idxFromEnd2 (pyRsplit2 k.name cfg.s3_key_delimiter)).map fun nm =>
    { name := nm
      path := pyReplace k.name cfg.s3_prefix_ ""
      last_modified := some now
      created := none
      type := "directory"
      mimetype := none
      writable := true
      format := none
      message := none }

/-- Lines 54-69, `_s3_key_notebook_to_model`; `none` models the
`AttributeError` on an entry without `last_modified` or the `ValueError`
raised by `strptime` on a malformed timestamp. -/
def s3_key_notebook_to_model (cfg : S3Config) (k : ListEntry) (timeformat : String) :
    Option FlatModel := do
  let lm ← k.last_modified
  let dt ← strptime lm timeformat
  pure
    { name := pyRsplitLast k.name cfg.s3_key_delimiter
      path := pyReplace k.name cfg.s3_prefix_ ""
      last_modified := some dt
      created := none
      type := "notebook"
      mimetype := none
      writable := true
      format := none
      message := none }

/-- Lines 85-94, `list_dirs`: every listing entry whose name ends with the
delimiter becomes a directory model.  `none` propagates a builder crash. -/
def list_dirs (cfg : S3Config) (now : PyDateTime) (store : Store) (path : String) :
    Option (List FlatModel) :=
  ((bucket_list store (path_to_s3_key_dir cfg path) cfg.s3_key_delimiter).filter
      (fun k => pyEndsWith k.name cfg.s3_key_delimiter)).mapM (s3_key_dir_to_model cfg now)

/-- Lines 96-105, `list_notebooks`: every listing entry whose name ends with
`.ipynb` becomes a notebook model, timestamps parsed with the list format. -/
def list_notebooks (cfg : S3Config) (store : Store) (path : String) :
    Option (List FlatModel) :=
  ((bucket_list store (path_to_s3_key_dir cfg path) cfg.s3_key_delimiter).filter
      (fun k => pyEndsWith k.name ".ipynb")).mapM
    (fun k => s3_key_notebook_to_model cfg k S3_TIMEFORMAT_BUCKET_LIST)

/-- Lines 158-163, `file_exists`.  Note that the source passes the logical
`path` itself to `bucket.get_key`, not the resolved key
`_path_to_s3_key(path)`; the returned key's `name` equals the requested
name, so the trailing-delimiter test is on `path`. -/
def file_exists (cfg : S3Config) (store : Store) (path : String) : Bool :=
  if path = "" then false
  else
    match get_key store path with
    | none => false
    | some _ => !(pyEndsWith path cfg.s3_key_delimiter)

/-- Line 165: `exists = file_exists` (the class binds the public name to the
very same function object). -/
def exists_ : S3Config → Store → String → Bool := file_exists

/-- Lines 218-229, `rename`: no-op on equal paths; 409 when the resolved
destination key exists; otherwise `copy_key` then `delete_key`.  A missing
source makes boto's `copy_key` raise (uncaught), before any state change. -/
def rename (cfg : S3Config) (store : Store) (old_path new_path : String) :
    Except Err Unit × Store :=
  if new_path = old_path then (Except.ok (), store)
  else if (get_key store (path_to_s3_key cfg new_path)).isSome then
    (Except.error
      (Err.http 409 ("Notebook with name already exists: " ++ path_to_s3_key cfg new_path)),
     store)
  else
    match get_key store (path_to_s3_key cfg old_path) with
    | none =>
      (Except.error (Err.crash ("copy source not found: " ++ path_to_s3_key cfg old_path)), store)
    | some obj =>
      (Except.ok (),
       delete_key (set_key store (path_to_s3_key cfg new_path) obj) (path_to_s3_key cfg old_path))

/-- Lines 113-143, `get`.  `now` feeds the directory model's wall-clock
timestamp.  The notebook-content path reads the stored payload; the host's
`mark_trusted_cells` / `validate_notebook_model` calls are content-preserving
for the fields modelled here and are not modelled further.  A `type`
argument that matches neither branch falls off the end of the Python
function, returning `None` — modelled as `Except.ok none`. -/
def get (cfg : S3Config) (now : PyDateTime) (store : Store) (path : String)
    (content : Bool) (type_ : Option String) : Except Err (Option Model) :=
  if type_ = some "directory" then
    match s3_key_dir_to_model cfg now
        { name := path_to_s3_key_dir cfg path, last_modified := none, content := none } with
    | none => Except.error (Err.crash "IndexError in rsplit")
    | some b =>
      if content then
        match list_dirs cfg now store path, list_notebooks cfg store path with
        | some ds, some ns =>
          Except.ok (some { base := { b with format := some "json" },
                            content := some (MContent.listing (ds ++ ns)) })
        | _, _ => Except.error (Err.crash "error while building the listing")
      else Except.ok (some { base := b, content := none })
  else if type_ = some "notebook" ∨ (type_ = none ∧ pyEndsWith path ".ipynb" = true) then
    match get_key store (path_to_s3_key cfg path) with
    | none => Except.error (Err.http 400 (path_to_s3_key cfg path ++ " not found"))
    | some obj =>
      match s3_key_notebook_to_model cfg
          { name := path_to_s3_key cfg path, last_modified := some obj.last_modified,
            content := some obj.content } S3_TIMEFORMAT_GET_KEY with
      | none => Except.error (Err.crash "ValueError in strptime")
      | some b =>
        if content then
          Except.ok (some { base := { b with format := some "json" },
                            content := some (MContent.nb obj.content) })
        else Except.ok (some { base := b, content := none })
  else Except.ok none

/-- Python truthiness of an optional string: `None` and `''` are falsy. -/
def truthyMsg : Option String → Option String
  | some s => if s = "" then none else some s
  | none => none

/-- The write phase of `save` (lines 235-251): the type/content checks and
the per-type store effect.  `lm` is the Last-Modified string the service
assigns to the stored object on put.  The notebook payload round-trips
through `nbformat.from_dict` / `check_and_sign` / `nbformat.write`, which
are host primitives that preserve the opaque payload modelled here. -/
def save_write (cfg : S3Config) (lm : String) (store : Store) (model : InModel)
    (path : String) : Except Err Store :=
  match model.type, model.content with
  | none, _ => Except.error (Err.http 400 "No file type provided")
  | some "directory", _ => Except.ok store
  | some _, none => Except.error (Err.http 400 "No file content provided")
  | some "notebook", some nb =>
    Except.ok (set_key store (path_to_s3_key cfg path) { last_modified := lm, content := nb })
  | some "file", some _ => Except.error (Err.notImplemented "file save coming soon")
  | some t, some _ => Except.error (Err.http 400 ("Unhandled contents type: " ++ t))

/-- Lines 231-266, `save`: write, then re-fetch `get(path, content=False)`,
attach a truthy validation message for notebook saves, blank the content
entry and return.  When the re-fetch returns Python `None` (path neither
`.ipynb` nor resolvable), the subsequent item assignment raises `TypeError`. -/
def save (cfg : S3Config) (now : PyDateTime) (lm : String) (store : Store)
    (model : InModel) (path : String) : Except Err Model × Store :=
  match save_write cfg lm store model path with
  | Except.error e => (Except.error e, store)
  | Except.ok store1 =>
    match get cfg now store1 path false none with
    | Except.error e => (Except.error e, store1)
    | Except.ok none =>
      (Except.error (Err.crash "TypeError: NoneType object does not support item assignment"),
       store1)
    | Except.ok (some m) =>
      match (if model.type = some "notebook" then truthyMsg model.message else none) with
      | some s =>
        (Except.ok { base := { m.base with message := some s }, content := none }, store1)
      | none => (Except.ok { m with content := none }, store1)

/-!  Theorems.  Each claim of the specification is settled below; helper
lemmas come first. -/

/-- C8: the two timestamp format constants are supported verbatim, and the
two example strings parse, under their respective formats, to the same
instant (2015-10-21 07:28:00), which both call sites subsequently tag as
UTC. -/
theorem c8_timeformats :
    S3_TIMEFORMAT_GET_KEY = "%a, %d %b %Y %H:%M:%S GMT" ∧
    S3_TIMEFORMAT_BUCKET_LIST = "%Y-%m-%dT%H:%M:%S.000Z" ∧
    strptime "Wed, 21 Oct 2015 07:28:00 GMT" S3_TIMEFORMAT_GET_KEY =
      some { year := 2015, month := 10, day := 21, hour := 7, minute := 28, second := 0 } ∧
    strptime "2015-10-21T07:28:00.000Z" S3_TIMEFORMAT_BUCKET_LIST =
      some { year := 2015, month := 10, day := 21, hour := 7, minute := 28, second := 0 } :=
  ⟨rfl, rfl, by decide, by decide⟩

/-- C1 counterexample: with prefix `nb/` and a store holding the object
`nb/a.ipynb`, the resolved key of path `a.ipynb` exists and is not
directory-style, yet `file_exists` returns `false` — the source passes the
raw path, not the resolved key, to the store lookup, so the claimed
biconditional fails. -/
theorem c1_counterexample :
    file_exists { s3_prefix_ := "nb/", s3_key_delimiter := "/" }
      [("nb/a.ipynb", { last_modified := "lm", content := "doc" })] "a.ipynb" = false ∧
    (get_key [("nb/a.ipynb", { last_modified := "lm", content := "doc" })]
      (path_to_s3_key { s3_prefix_ := "nb/", s3_key_delimiter := "/" } "a.ipynb")).isSome = true ∧
    pyEndsWith (path_to_s3_key { s3_prefix_ := "nb/", s3_key_delimiter := "/" } "a.ipynb")
      "/" = false := by
  decide

/-- C1 (amended): `file_exists` is false on the empty path, and on a
non-empty path it is true exactly when the raw logical path itself is a key
in the store and does not end with the delimiter — the source never resolves
the path through the prefix here. -/
theorem c1_file_exists_raw_path (cfg : S3Config) (store : Store) (p : String) :
    file_exists cfg store p = true ↔
      p ≠ "" ∧ (get_key store p).isSome = true ∧
        pyEndsWith p cfg.s3_key_delimiter = false := by
  unfold file_exists
  split
  · next hp => simp [hp]
  · next hp =>
    cases h : get_key store p with
    | none => simp [hp, h]
    | some obj => simp [hp, h, Bool.not_eq_true']

/-- C10 counterexample: `exists` consults the raw path, so for the path
`nb/a/x.ipynb` — whose resolved key `nb/nb/a/x.ipynb` is absent and exists
only as a synthetic directory prefix (the stored key `nb/nb/a/x.ipynb/y`
extends it with the delimiter) — `exists` nevertheless returns true, because
an object whose key equals the raw path is present.  Both stored keys carry
the configured prefix `nb/`. -/
theorem c10_counterexample :
    exists_ { s3_prefix_ := "nb/", s3_key_delimiter := "/" }
      [("nb/a/x.ipynb", { last_modified := "lm", content := "doc" }),
       ("nb/nb/a/x.ipynb/y", { last_modified := "lm2", content := "doc2" })]
      "nb/a/x.ipynb" = true ∧
    get_key
      [("nb/a/x.ipynb", { last_modified := "lm", content := "doc" }),
       ("nb/nb/a/x.ipynb/y", { last_modified := "lm2", content := "doc2" })]
      (path_to_s3_key { s3_prefix_ := "nb/", s3_key_delimiter := "/" } "nb/a/x.ipynb") =
      none ∧
    pyStartsWith "nb/nb/a/x.ipynb/y"
      (path_to_s3_key { s3_prefix_ := "nb/", s3_key_delimiter := "/" } "nb/a/x.ipynb" ++ "/") =
      true := by
  decide

/-- C10 (amended): the public `exists` is the very same function as
`file_exists`, and it is false whenever the path is empty, or the raw path
ends with the delimiter, or the raw path is not itself a key of the store
(in particular for keys present only as synthetic directory prefixes of the
raw path). -/
theorem c10_exists_is_file_exists :
    exists_ = file_exists ∧
    ∀ (cfg : S3Config) (store : Store) (p : String),
      (p = "" ∨ pyEndsWith p cfg.s3_key_delimiter = true ∨ get_key store p = none) →
      exists_ cfg store p = false := by
  refine ⟨rfl, fun cfg store p h => ?_⟩
  unfold exists_ file_exists
  rcases h with h | h | h
  · simp [h]
  · split
    · rfl
    · cases hk : get_key store p with
      | none => simp
      | some obj => simp [h]
  · split
    · rfl
    · simp [h]

/-- C10 witness: the amended theorem applied at the empty path on a concrete
configuration and store. -/
theorem c10_exists_is_file_exists_witness :
    exists_ { s3_prefix_ := "nb/", s3_key_delimiter := "/" } [] "" = false :=
  c10_exists_is_file_exists.2 { s3_prefix_ := "nb/", s3_key_delimiter := "/" } [] ""
    (Or.inl rfl)

/-- C3: when the paths differ and the resolved destination key already
exists, `rename` raises the 409 conflict error and returns the store
unchanged — nothing is copied, overwritten or deleted. -/
theorem c3_rename_conflict (cfg : S3Config) (store : Store) (old_path new_path : String)
    (hne : new_path ≠ old_path)
    (hdst : (get_key store (path_to_s3_key cfg new_path)).isSome = true) :
    rename cfg store old_path new_path =
      (Except.error
        (Err.http 409 ("Notebook with name already exists: " ++ path_to_s3_key cfg new_path)),
       store) := by
  unfold rename
  rw [if_neg hne, if_pos hdst]

/-- C3 witness: a concrete conflicting rename. -/
theorem c3_rename_conflict_witness :
    rename { s3_prefix_ := "nb/", s3_key_delimiter := "/" }
      [("nb/b.ipynb", { last_modified := "t", content := "c" }),
       ("nb/a.ipynb", { last_modified := "t2", content := "c2" })] "a.ipynb" "b.ipynb" =
      (Except.error
        (Err.http 409 ("Notebook with name already exists: " ++
          path_to_s3_key { s3_prefix_ := "nb/", s3_key_delimiter := "/" } "b.ipynb")),
       [("nb/b.ipynb", { last_modified := "t", content := "c" }),
        ("nb/a.ipynb", { last_modified := "t2", content := "c2" })]) :=
  c3_rename_conflict { s3_prefix_ := "nb/", s3_key_delimiter := "/" }
    [("nb/b.ipynb", { last_modified := "t", content := "c" }),
     ("nb/a.ipynb", { last_modified := "t2", content := "c2" })] "a.ipynb" "b.ipynb"
    (by decide) (by decide)

/-- C9 counterexample: a file-type save whose model carries no `content`
entry fails with the 400 missing-content error, not with the
not-implemented (unsupported operation) error the claim promises for every
file-type save. -/
theorem c9_counterexample :
    save { s3_prefix_ := "nb/", s3_key_delimiter := "/" }
      { year := 2020, month := 1, day := 1, hour := 0, minute := 0, second := 0 } "lm" []
      { type := some "file", content := none, message := none } "p" =
      (Except.error (Err.http 400 "No file content provided"), []) ∧
    Err.http 400 "No file content provided" ≠ Err.notImplemented "file save coming soon" := by
  exact ⟨rfl, by decide⟩

/-- C9 (amended): a file-type save always fails before any store write — the
store is returned unchanged — with the not-implemented error when a content
entry is present, and with the 400 missing-content error when it is not. -/
theorem c9_file_save_fails (cfg : S3Config) (now : PyDateTime) (lm : String)
    (store : Store) (model : InModel) (path : String)
    (hf : model.type = some "file") :
    save cfg now lm store model path =
      (if model.content.isNone = true then Except.error (Err.http 400 "No file content provided")
       else Except.error (Err.notImplemented "file save coming soon"), store) := by
  obtain ⟨t, c, mg⟩ := model
  simp only at hf
  subst hf
  cases c with
  | none => rfl
  | some nb => rfl

/-- C9 witness: a concrete file-type save with content present. -/
theorem c9_file_save_fails_witness :
    save { s3_prefix_ := "nb/", s3_key_delimiter := "/" }
      { year := 2020, month := 1, day := 1, hour := 0, minute := 0, second := 0 } "lm" []
      { type := some "file", content := some "doc", message := none } "p" =
      (if (some "doc" : Option String).isNone = true then
        Except.error (Err.http 400 "No file content provided")
       else Except.error (Err.notImplemented "file save coming soon"), []) :=
  c9_file_save_fails { s3_prefix_ := "nb/", s3_key_delimiter := "/" }
    { year := 2020, month := 1, day := 1, hour := 0, minute := 0, second := 0 } "lm" []
    { type := some "file", content := some "doc", message := none } "p" rfl

/-- A stripped string never equals the (nonempty) delimiter string itself:
its last character — head of the reversed, right-stripped list — is not a
delimiter character, while the delimiter's last character is. -/
theorem pyStrip_ne_delim (p d : String) (hd : d ≠ "") : pyStrip p d ≠ d := by
  intro h
  have hdata : ((p.data.dropWhile (fun c => d.data.contains c)).reverse.dropWhile
      (fun c => d.data.contains c)).reverse = d.data := congrArg String.data h
  have hne : d.data ≠ [] := by
    intro hnil
    exact hd (String.ext (hnil.trans rfl))
  have hX : ((p.data.dropWhile (fun c => d.data.contains c)).reverse.dropWhile
      (fun c => d.data.contains c)) = d.data.reverse := by
    have := congrArg List.reverse hdata
    simpa using this
  cases hrev : d.data.reverse with
  | nil =>
    exact hne (by simpa using congrArg List.reverse hrev)
  | cons a as =>
    rw [hrev] at hX
    have h9 := List.head?_dropWhile_not (fun c => d.data.contains c)
      (p.data.dropWhile (fun c => d.data.contains c)).reverse
    rw [hX] at h9
    simp only [List.head?_cons] at h9
    have hamem : a ∈ d.data := by
      refine List.mem_reverse.mp ?_
      rw [hrev]
      exact List.mem_cons_self a as
    have hcont : d.data.contains a = true := List.elem_iff.mpr hamem
    rw [hcont] at h9
    cases h9

/-- C5: `pathToDirKey` of the empty path is the bare prefix; of a non-empty
path it is prefix, stripped path, then one trailing delimiter; and it never
produces `prefix ++ delimiter ++ delimiter`. -/
theorem c5_path_to_s3_key_dir (cfg : S3Config) (p : String)
    (hd : cfg.s3_key_delimiter ≠ "") :
    path_to_s3_key_dir cfg "" = cfg.s3_prefix_ ∧
    (p ≠ "" → path_to_s3_key_dir cfg p =
      cfg.s3_prefix_ ++ pyStrip p cfg.s3_key_delimiter ++ cfg.s3_key_delimiter) ∧
    path_to_s3_key_dir cfg p ≠
      cfg.s3_prefix_ ++ cfg.s3_key_delimiter ++ cfg.s3_key_delimiter := by
  have hdlen : 0 < cfg.s3_key_delimiter.length := by
    cases hc : cfg.s3_key_delimiter.data with
    | nil => exact absurd (String.ext (hc.trans rfl)) hd
    | cons a as =>
      show 0 < cfg.s3_key_delimiter.data.length
      rw [hc]
      simp
  have h1 : path_to_s3_key_dir cfg "" = cfg.s3_prefix_ := by
    have hstrip : pyStrip "" cfg.s3_key_delimiter = "" := rfl
    simp [path_to_s3_key_dir, path_to_s3_key, hstrip]
  refine ⟨h1, fun hp => by simp [path_to_s3_key_dir, path_to_s3_key, hp], ?_⟩
  by_cases hp : p = ""
  · subst hp
    rw [h1]
    intro heq
    have := congrArg String.length heq
    simp only [String.length_append] at this
    omega
  · have h2 : path_to_s3_key_dir cfg p =
        cfg.s3_prefix_ ++ pyStrip p cfg.s3_key_delimiter ++ cfg.s3_key_delimiter := by
      simp [path_to_s3_key_dir, path_to_s3_key, hp]
    rw [h2]
    intro heq
    have hldata := congrArg String.data heq
    simp only [String.data_append, List.append_assoc] at hldata
    have hcancel := List.append_cancel_left hldata
    have hlen : (pyStrip p cfg.s3_key_delimiter).data.length =
        cfg.s3_key_delimiter.data.length := by
      have := congrArg List.length hcancel
      simp only [List.length_append] at this
      omega
    have heqd := (List.append_inj hcancel hlen).1
    exact pyStrip_ne_delim p cfg.s3_key_delimiter hd (String.ext heqd)

/-- C5 witness: the no-doubled-delimiter conjunct at a concrete
configuration and path. -/
theorem c5_path_to_s3_key_dir_witness :
    path_to_s3_key_dir { s3_prefix_ := "nb/", s3_key_delimiter := "/" } "a" ≠
      "nb/" ++ "/" ++ "/" :=
  (c5_path_to_s3_key_dir { s3_prefix_ := "nb/", s3_key_delimiter := "/" } "a"
    (by decide)).2.2

/-- A single-character separator that occurs nowhere makes the first-split
helper return `none`. -/
theorem splitOnceAux_single_none (c : Char) (l : List Char) (h : c ∉ l) :
    splitOnceAux [c] l = none := by
  induction l with
  | nil => rfl
  | cons a as ih =>
    simp only [List.mem_cons, not_or] at h
    obtain ⟨hca, hcas⟩ := h
    have hpre : ([c].isPrefixOf (a :: as)) = false := by
      simp [List.isPrefixOf, hca]
    simp [splitOnceAux, hpre, ih hcas]

/-- The first-split helper splits at the first occurrence of a
single-character separator. -/
theorem splitOnceAux_single_app (c : Char) (b p : List Char) (hb : c ∉ b) :
    splitOnceAux [c] (b ++ c :: p) = some (b, p) := by
  induction b with
  | nil => simp [splitOnceAux, List.isPrefixOf]
  | cons a as ih =>
    simp only [List.mem_cons, not_or] at hb
    obtain ⟨hca, hcas⟩ := hb
    have hpre : ([c].isPrefixOf (a :: (as ++ c :: p))) = false := by
      simp [List.isPrefixOf, hca]
    simp [splitOnceAux, hpre, ih hcas]

/-- The right-split helper splits at the last occurrence of a
single-character separator. -/
theorem rsplitOnceL_single (c : Char) (a b : List Char) (hb : c ∉ b) :
    rsplitOnceL [c] (a ++ c :: b) = some (a, b) := by
  unfold rsplitOnceL
  have hrev : (a ++ c :: b).reverse = b.reverse ++ c :: a.reverse := by
    simp
  rw [show ([c] : List Char).reverse = [c] from rfl, hrev,
    splitOnceAux_single_app c b.reverse a.reverse (by simpa using hb)]
  simp

/-- The right-split helper finds nothing when the single-character separator
does not occur. -/
theorem rsplitOnceL_single_none (c : Char) (l : List Char) (h : c ∉ l) :
    rsplitOnceL [c] l = none := by
  unfold rsplitOnceL
  rw [show ([c] : List Char).reverse = [c] from rfl,
    splitOnceAux_single_none c l.reverse (by simpa using h)]

/-- Any list containing `c` decomposes around the last occurrence of `c`. -/
theorem exists_last_split (c : Char) (l : List Char) (h : c ∈ l) :
    ∃ a b, l = a ++ c :: b ∧ c ∉ b := by
  induction l with
  | nil => cases h
  | cons x xs ih =>
    by_cases hx : c ∈ xs
    · obtain ⟨a, b, heq, hb⟩ := ih hx
      exact ⟨x :: a, b, by rw [heq]; rfl, hb⟩
    · have hxc : x = c := by
        rcases List.mem_cons.mp h with h1 | h1
        · exact h1.symm
        · exact absurd h1 hx
      exact ⟨[], xs, by rw [hxc]; rfl, hx⟩

/-- C4 counterexample: a uri of the configured form with the optional prefix
part absent is accepted, but the result is the one-element list, not the
claimed pair with an empty prefix. -/
theorem c4_counterexample :
    parse_s3_uri "s3://bucket" "/" = some ["bucket"] ∧
    some ["bucket"] ≠ some ["bucket", ""] :=
  ⟨rfl, by decide⟩

/-- C4 (amended): `parse_s3_uri` fails exactly when the uri does not begin
with the scheme token; an accepted uri whose remainder contains the
(single-character) delimiter splits at its first occurrence into the bucket
and prefix pair; an accepted uri without a delimiter in the remainder yields
the one-element list `[bucket]` (the construction site then fails on
unpacking), not a pair with an empty prefix. -/
theorem c4_parse_s3_uri (uri bkt rest delim : String) (c : Char)
    (hdelim : delim.data = [c]) (hb : c ∉ bkt.data) :
    (parse_s3_uri uri delim = none ↔ pyStartsWith uri "s3://" = false) ∧
    parse_s3_uri ("s3://" ++ bkt ++ delim ++ rest) delim = some [bkt, rest] ∧
    parse_s3_uri ("s3://" ++ bkt) delim = some [bkt] := by
  refine ⟨?_, ?_, ?_⟩
  · cases hs : pyStartsWith uri "s3://" <;> simp [parse_s3_uri, hs]
  · have hstart : pyStartsWith ("s3://" ++ bkt ++ delim ++ rest) "s3://" = true := by
      unfold pyStartsWith
      rw [List.isPrefixOf_iff_prefix]
      simp only [String.data_append, List.append_assoc]
      exact List.prefix_append _ _
    have hdrop : ("s3://" ++ bkt ++ delim ++ rest).data.drop 5 =
        bkt.data ++ c :: rest.data := by
      simp only [String.data_append, List.append_assoc]
      rw [show (5 : Nat) = "s3://".data.length from rfl, List.drop_left, hdelim]
      rfl
    simp only [parse_s3_uri, hstart, if_true]
    unfold pySplitOnce
    rw [show (String.mk (("s3://" ++ bkt ++ delim ++ rest).data.drop 5)).data =
        ("s3://" ++ bkt ++ delim ++ rest).data.drop 5 from rfl, hdrop, hdelim,
      splitOnceAux_single_app c bkt.data rest.data hb]
  · have hstart : pyStartsWith ("s3://" ++ bkt) "s3://" = true := by
      unfold pyStartsWith
      rw [List.isPrefixOf_iff_prefix]
      simp only [String.data_append, List.append_assoc]
      exact List.prefix_append _ _
    have hdrop : ("s3://" ++ bkt).data.drop 5 = bkt.data := by
      simp only [String.data_append]
      rw [show (5 : Nat) = "s3://".data.length from rfl, List.drop_left]
    simp only [parse_s3_uri, hstart, if_true]
    unfold pySplitOnce
    rw [show (String.mk (("s3://" ++ bkt).data.drop 5)).data =
        ("s3://" ++ bkt).data.drop 5 from rfl, hdrop, hdelim,
      splitOnceAux_single_none c bkt.data hb]

/-- C4 witness: the amended theorem at concrete uris with the default
delimiter. -/
theorem c4_parse_s3_uri_witness :
    (parse_s3_uri "http://x" "/" = none ↔ pyStartsWith "http://x" "s3://" = false) ∧
    parse_s3_uri ("s3://" ++ "bucket" ++ "/" ++ "pre") "/" = some ["bucket", "pre"] ∧
    parse_s3_uri ("s3://" ++ "bucket") "/" = some ["bucket"] :=
  c4_parse_s3_uri "http://x" "bucket" "pre" "/" '/' (by decide) (by decide)

/-- The segment splitter never returns an empty list. -/
theorem splitAllChar_ne_nil (c : Char) (l : List Char) : splitAllChar c l ≠ [] := by
  cases l with
  | nil => simp [splitAllChar]
  | cons a as =>
    rw [splitAllChar]
    split
    · exact List.cons_ne_nil _ _
    · split
      · exact List.cons_ne_nil _ _
      · exact List.cons_ne_nil _ _

/-- A list without the separator is a single segment. -/
theorem splitAllChar_no (c : Char) (l : List Char) (h : c ∉ l) :
    splitAllChar c l = [l] := by
  induction l with
  | nil => rfl
  | cons a as ih =>
    simp only [List.mem_cons, not_or] at h
    obtain ⟨hca, hcas⟩ := h
    rw [splitAllChar, if_neg (fun h1 => hca h1.symm), ih hcas]

/-- Splitting around an occurrence of the separator concatenates the two
segment lists. -/
theorem splitAllChar_append (c : Char) (u v : List Char) :
    splitAllChar c (u ++ c :: v) = splitAllChar c u ++ splitAllChar c v := by
  induction u with
  | nil => simp [splitAllChar]
  | cons a as ih =>
    by_cases hac : a = c
    · subst hac
      rw [List.cons_append]
      simp [splitAllChar, ih]
    · obtain ⟨s, ss, hss⟩ : ∃ s ss, splitAllChar c as = s :: ss := by
        cases hsp : splitAllChar c as with
        | nil => exact absurd hsp (splitAllChar_ne_nil c as)
        | cons s ss => exact ⟨s, ss, rfl⟩
      rw [List.cons_append]
      simp [splitAllChar, hac, ih, hss]

/-- Python replace leaves a pattern-free list unchanged (any fuel). -/
theorem pyReplaceAux_no_occur (pat repl : List Char) (fuel : Nat)
    (l : List Char) (h : ¬ pat <:+: l) : pyReplaceAux pat repl fuel l = l := by
  induction fuel generalizing l with
  | zero => cases l <;> rfl
  | succ n ih =>
    cases l with
    | nil => rfl
    | cons a as =>
      rw [List.infix_cons_iff, not_or] at h
      obtain ⟨h1, h2⟩ := h
      have hpre : pat.isPrefixOf (a :: as) = false := by
        rw [← Bool.not_eq_true, List.isPrefixOf_iff_prefix]
        exact h1
      rw [pyReplaceAux, if_neg (by simp [hpre]), ih as h2]

/-- Python replace erases a leading occurrence of the pattern and continues
on the remainder. -/
theorem pyReplaceAux_strip_first (pat repl : List Char) (hp : pat ≠ []) (fuel : Nat)
    (rest : List Char) :
    pyReplaceAux pat repl (fuel + 1) (pat ++ rest) =
      repl ++ pyReplaceAux pat repl fuel rest := by
  cases pat with
  | nil => exact absurd rfl hp
  | cons p0 ps =>
    have hpre : (p0 :: ps).isPrefixOf (p0 :: (ps ++ rest)) = true := by
      rw [List.isPrefixOf_iff_prefix, ← List.cons_append]
      exact List.prefix_append _ _
    rw [show (p0 :: ps) ++ rest = p0 :: (ps ++ rest) from rfl, pyReplaceAux,
      if_pos (by simp [hpre])]
    have hdrop : (p0 :: (ps ++ rest)).drop (p0 :: ps).length = rest := by
      simp only [List.length_cons, List.drop_succ_cons]
      exact List.drop_left ps rest
    rw [hdrop]

/-- When the prefix occurs in the key only as its leading prefix, Python
replace-all coincides with removal of the leading prefix. -/
theorem pyReplace_leading (key pre : String) (hne : pre.data ≠ [])
    (hlead : key.data = pre.data ++ key.data.drop pre.data.length)
    (hno : ¬ pre.data <:+: key.data.drop pre.data.length) :
    pyReplace key pre "" = String.mk (key.data.drop pre.data.length) := by
  unfold pyReplace
  rw [if_neg hne]
  obtain ⟨n, hn⟩ : ∃ n, key.data.length = n + 1 := by
    have h0 : 0 < pre.data.length := List.length_pos.mpr hne
    have h1 := congrArg List.length hlead
    simp only [List.length_append] at h1
    exact ⟨key.data.length - 1, by omega⟩
  congr 1
  rw [show ("" : String).data = [] from rfl, hn]
  conv_lhs => rw [hlead]
  rw [pyReplaceAux_strip_first pre.data [] hne n _,
    pyReplaceAux_no_occur pre.data [] n _ hno, List.nil_append]

/-- The name computed by the notebook model builder — `rsplit(delim, 1)[-1]`
— is the last delimiter segment of the key, for a one-character delimiter. -/
theorem pyRsplitLast_eq_lastSeg (c : Char) (delim key : String)
    (hdelim : delim.data = [c]) :
    (pyRsplitLast key delim).data = (splitAllChar c key.data).getLastD [] := by
  by_cases hc : c ∈ key.data
  · obtain ⟨a, b, hab, hb⟩ := exists_last_split c key.data hc
    unfold pyRsplitLast
    rw [hdelim, hab, rsplitOnceL_single c a b hb, splitAllChar_append,
      splitAllChar_no c b hb, List.getLastD_concat]
  · unfold pyRsplitLast
    rw [hdelim, rsplitOnceL_single_none c key.data hc, splitAllChar_no c key.data hc]
    rfl

/-- The name computed by the directory model builder — `rsplit(delim, 2)[-2]`
— is the second-to-last delimiter segment of the key, for a one-character
delimiter occurring in the key. -/
theorem pyRsplit2_eq_secondToLastSeg (c : Char) (delim key : String)
    (hdelim : delim.data = [c]) (hc : c ∈ key.data) :
    2 ≤ (splitAllChar c key.data).length ∧
    ∃ nm, idxFromEnd2 (pyRsplit2 key delim) = some nm ∧
      nm.data = (splitAllChar c key.data).getD ((splitAllChar c key.data).length - 2) [] := by
  obtain ⟨a, b, hab, hb⟩ := exists_last_split c key.data hc
  have hsegs : splitAllChar c key.data = splitAllChar c a ++ [b] := by
    rw [hab, splitAllChar_append, splitAllChar_no c b hb]
  by_cases hca : c ∈ a
  · obtain ⟨a1, a2, ha12, ha2⟩ := exists_last_split c a hca
    have hsega : splitAllChar c a = splitAllChar c a1 ++ [a2] := by
      rw [ha12, splitAllChar_append, splitAllChar_no c a2 ha2]
    have hr2 : pyRsplit2 key delim = [String.mk a1, String.mk a2, String.mk b] := by
      unfold pyRsplit2
      rw [hdelim, hab, rsplitOnceL_single c a b hb]
      simp only []
      rw [ha12, rsplitOnceL_single c a1 a2 ha2]
    have hlen : (splitAllChar c key.data).length = (splitAllChar c a1).length + 2 := by
      rw [hsegs, hsega]
      simp
    refine ⟨by omega, String.mk a2, ?_, ?_⟩
    · rw [hr2]
      rfl
    · rw [hsegs, hsega]
      have hxlen : (splitAllChar c a1 ++ [a2] ++ [b]).length =
          (splitAllChar c a1).length + 2 := by simp
      rw [List.getD_eq_getElem?_getD, hxlen, Nat.add_sub_cancel, List.append_assoc,
        List.getElem?_append_right (Nat.le_refl _)]
      simp
  · have hsega : splitAllChar c a = [a] := splitAllChar_no c a hca
    have hr2 : pyRsplit2 key delim = [String.mk a, String.mk b] := by
      unfold pyRsplit2
      rw [hdelim, hab, rsplitOnceL_single c a b hb]
      simp only []
      rw [rsplitOnceL_single_none c a hca]
    have hlen : (splitAllChar c key.data).length = 2 := by
      rw [hsegs, hsega]
      rfl
    refine ⟨by omega, String.mk a, ?_, ?_⟩
    · rw [hr2]
      rfl
    · rw [hsegs, hsega]
      rfl

/-- C6 counterexample: for the key `nb/nb/a.ipynb`, which begins with the
configured prefix `nb/`, the builder sets the model path to `a.ipynb` —
`str.replace` removes every occurrence of the prefix — whereas removing only
the leading prefix yields `nb/a.ipynb`, so the claimed path rule fails. -/
theorem c6_counterexample :
    pyStartsWith "nb/nb/a.ipynb" "nb/" = true ∧
    s3_key_notebook_to_model { s3_prefix_ := "nb/", s3_key_delimiter := "/" }
      { name := "nb/nb/a.ipynb", last_modified := some "2015-10-21T07:28:00.000Z",
        content := some "doc" } S3_TIMEFORMAT_BUCKET_LIST =
      some { name := "a.ipynb", path := "a.ipynb",
             last_modified := some { year := 2015, month := 10, day := 21, hour := 7,
                                     minute := 28, second := 0 },
             created := none, type := "notebook", mimetype := none, writable := true,
             format := none, message := none } ∧
    String.mk ("nb/nb/a.ipynb".data.drop "nb/".data.length) = "nb/a.ipynb" ∧
    ("a.ipynb" : String) ≠ "nb/a.ipynb" := by
  exact ⟨rfl, by decide, rfl, by decide⟩

/-- C6 (amended): for a one-character delimiter, a prefix ending with the
delimiter and a key beginning with the prefix, the directory builder's model
name is the second-to-last delimiter segment of the key and the notebook
builder's name is the last segment, as claimed; but both builders set the
model path to the key with every occurrence of the prefix removed
(`str.replace`), which coincides with removal of the leading prefix exactly
when the prefix does not reoccur in the remainder of the key. -/
theorem c6_model_builders (cfg : S3Config) (now : PyDateTime) (c : Char)
    (key lm doc fmt : String) (m2 : FlatModel)
    (hdelim : cfg.s3_key_delimiter.data = [c])
    (hpre : pyEndsWith cfg.s3_prefix_ cfg.s3_key_delimiter = true)
    (hkey : pyStartsWith key cfg.s3_prefix_ = true) :
    (∃ m1, s3_key_dir_to_model cfg now
        { name := key, last_modified := none, content := none } = some m1 ∧
      2 ≤ (splitAllChar c key.data).length ∧
      m1.name.data = (splitAllChar c key.data).getD ((splitAllChar c key.data).length - 2) [] ∧
      m1.path = pyReplace key cfg.s3_prefix_ "") ∧
    (s3_key_notebook_to_model cfg
        { name := key, last_modified := some lm, content := some doc } fmt = some m2 →
      m2.name.data = (splitAllChar c key.data).getLastD [] ∧
      m2.path = pyReplace key cfg.s3_prefix_ "") ∧
    (¬ cfg.s3_prefix_.data <:+: key.data.drop cfg.s3_prefix_.data.length →
      pyReplace key cfg.s3_prefix_ "" =
        String.mk (key.data.drop cfg.s3_prefix_.data.length)) := by
  have hsuf : cfg.s3_key_delimiter.data <:+ cfg.s3_prefix_.data := by
    unfold pyEndsWith at hpre
    exact List.isSuffixOf_iff_suffix.mp hpre
  rw [hdelim] at hsuf
  have hcpre : c ∈ cfg.s3_prefix_.data := hsuf.subset (List.mem_singleton_self c)
  have hprefix : cfg.s3_prefix_.data <+: key.data := by
    unfold pyStartsWith at hkey
    exact List.isPrefixOf_iff_prefix.mp hkey
  have hc : c ∈ key.data := hprefix.subset hcpre
  have hne : cfg.s3_prefix_.data ≠ [] := List.ne_nil_of_mem hcpre
  have hlead : key.data = cfg.s3_prefix_.data ++ key.data.drop cfg.s3_prefix_.data.length := by
    obtain ⟨r, hr⟩ := hprefix
    rw [← hr, List.drop_left]
  refine ⟨?_, ?_, fun hno => pyReplace_leading key cfg.s3_prefix_ hne hlead hno⟩
  · obtain ⟨hlen2, nm, hidx, hnm⟩ :=
      pyRsplit2_eq_secondToLastSeg c cfg.s3_key_delimiter key hdelim hc
    refine ⟨{ name := nm, path := pyReplace key cfg.s3_prefix_ "", last_modified := some now,
              created := none, type := "directory", mimetype := none, writable := true,
              format := none, message := none }, ?_, hlen2, ?_, rfl⟩
    · simp [s3_key_dir_to_model, hidx]
    · simpa using hnm
  · intro h2
    cases hdt : strptime lm fmt with
    | none => simp [s3_key_notebook_to_model, hdt] at h2
    | some dt =>
      simp [s3_key_notebook_to_model, hdt] at h2
      subst h2
      exact ⟨pyRsplitLast_eq_lastSeg c cfg.s3_key_delimiter key hdelim, rfl⟩

/-- C6 witness: the amended theorem at the default delimiter, prefix `nb/`
and key `nb/a.ipynb`. -/
theorem c6_model_builders_witness :
    (∃ m1, s3_key_dir_to_model { s3_prefix_ := "nb/", s3_key_delimiter := "/" }
        { year := 2020, month := 1, day := 1, hour := 0, minute := 0, second := 0 }
        { name := "nb/a.ipynb", last_modified := none, content := none } = some m1 ∧
      2 ≤ (splitAllChar '/' "nb/a.ipynb".data).length ∧
      m1.name.data = (splitAllChar '/' "nb/a.ipynb".data).getD
        ((splitAllChar '/' "nb/a.ipynb".data).length - 2) [] ∧
      m1.path = pyReplace "nb/a.ipynb" "nb/" "") ∧
    (s3_key_notebook_to_model { s3_prefix_ := "nb/", s3_key_delimiter := "/" }
        { name := "nb/a.ipynb", last_modified := some "2015-10-21T07:28:00.000Z",
          content := some "doc" } S3_TIMEFORMAT_BUCKET_LIST =
        some { name := "a.ipynb", path := "a.ipynb",
               last_modified := some { year := 2015, month := 10, day := 21, hour := 7,
                                       minute := 28, second := 0 },
               created := none, type := "notebook", mimetype := none, writable := true,
               format := none, message := none } →
      ("a.ipynb" : String).data = (splitAllChar '/' "nb/a.ipynb".data).getLastD [] ∧
      ("a.ipynb" : String) = pyReplace "nb/a.ipynb" "nb/" "") ∧
    (¬ "nb/".data <:+: "nb/a.ipynb".data.drop "nb/".data.length →
      pyReplace "nb/a.ipynb" "nb/" "" =
        String.mk ("nb/a.ipynb".data.drop "nb/".data.length)) :=
  c6_model_builders { s3_prefix_ := "nb/", s3_key_delimiter := "/" }
    { year := 2020, month := 1, day := 1, hour := 0, minute := 0, second := 0 } '/'
    "nb/a.ipynb" "2015-10-21T07:28:00.000Z" "doc" S3_TIMEFORMAT_BUCKET_LIST
    { name := "a.ipynb", path := "a.ipynb",
      last_modified := some { year := 2015, month := 10, day := 21, hour := 7,
                              minute := 28, second := 0 },
      created := none, type := "notebook", mimetype := none, writable := true,
      format := none, message := none }
    (by decide) (by decide) (by decide)

/-- Membership in a successful `Option`-monadic map comes from a member of
the input list mapped successfully. -/
theorem mapM_option_mem {α β : Type} (g : α → Option β) :
    ∀ (l : List α) (r : List β), l.mapM g = some r → ∀ m ∈ r, ∃ e ∈ l, g e = some m := by
  intro l
  induction l with
  | nil =>
    intro r hr m hm
    simp only [List.mapM_nil, Option.pure_def, Option.some.injEq] at hr
    subst hr
    cases hm
  | cons a as ih =>
    intro r hr m hm
    rw [List.mapM_cons] at hr
    cases hga : g a with
    | none => rw [hga] at hr; simp at hr
    | some b =>
      rw [hga] at hr
      cases hmas : as.mapM g with
      | none => rw [hmas] at hr; simp at hr
      | some bs =>
        rw [hmas] at hr
        simp at hr
        subst hr
        rcases List.mem_cons.mp hm with h1 | h1
        · exact ⟨a, List.mem_cons_self a as, by rw [hga, h1]⟩
        · obtain ⟨e, he, hge⟩ := ih bs hmas m h1
          exact ⟨e, List.mem_cons_of_mem a he, hge⟩

/-- C7: every directory model returned by `list_dirs` comes from a listing
entry whose key ends with the delimiter, every notebook model returned by
`list_notebooks` comes from an entry whose key ends with `.ipynb`, and —
whenever neither of the two suffixes is a suffix of the other, as with the
default delimiter — no listing entry satisfies both suffix tests, so no
entry feeds both lists of the same listing call. -/
theorem c7_list_filters (cfg : S3Config) (now : PyDateTime) (store : Store) (path : String)
    (ds ns : List FlatModel)
    (hds : list_dirs cfg now store path = some ds)
    (hns : list_notebooks cfg store path = some ns) :
    (∀ m ∈ ds, ∃ e ∈ bucket_list store (path_to_s3_key_dir cfg path) cfg.s3_key_delimiter,
        pyEndsWith e.name cfg.s3_key_delimiter = true ∧
        s3_key_dir_to_model cfg now e = some m) ∧
    (∀ m ∈ ns, ∃ e ∈ bucket_list store (path_to_s3_key_dir cfg path) cfg.s3_key_delimiter,
        pyEndsWith e.name ".ipynb" = true ∧
        s3_key_notebook_to_model cfg e S3_TIMEFORMAT_BUCKET_LIST = some m) ∧
    ((pyEndsWith ".ipynb" cfg.s3_key_delimiter = false ∧
      pyEndsWith cfg.s3_key_delimiter ".ipynb" = false) →
      ∀ e : ListEntry, ¬(pyEndsWith e.name cfg.s3_key_delimiter = true ∧
        pyEndsWith e.name ".ipynb" = true)) := by
  refine ⟨?_, ?_, ?_⟩
  · intro m hm
    obtain ⟨e, he, hge⟩ := mapM_option_mem (s3_key_dir_to_model cfg now) _ ds hds m hm
    have hef := List.mem_filter.mp he
    exact ⟨e, hef.1, hef.2, hge⟩
  · intro m hm
    obtain ⟨e, he, hge⟩ := mapM_option_mem
      (fun k => s3_key_notebook_to_model cfg k S3_TIMEFORMAT_BUCKET_LIST) _ ns hns m hm
    have hef := List.mem_filter.mp he
    exact ⟨e, hef.1, hef.2, hge⟩
  · rintro ⟨h1, h2⟩ e ⟨hd, hi⟩
    unfold pyEndsWith at hd hi h1 h2
    have hsd := List.isSuffixOf_iff_suffix.mp hd
    have hsi := List.isSuffixOf_iff_suffix.mp hi
    rcases List.suffix_or_suffix_of_suffix hsd hsi with h | h
    · have hx := List.isSuffixOf_iff_suffix.mpr h
      rw [hx] at h1
      cases h1
    · have hx := List.isSuffixOf_iff_suffix.mpr h
      rw [hx] at h2
      cases h2

/-- C7 witness: the theorem at a concrete store; the single directory entry
of the listing (the common prefix `nb/d/`) produces the returned directory
model. -/
theorem c7_list_filters_witness :
    ∃ e ∈ bucket_list
        [("nb/d/x.ipynb", { last_modified := "t", content := "c" }),
         ("nb/n.ipynb", { last_modified := "2015-10-21T07:28:00.000Z", content := "c2" })]
        (path_to_s3_key_dir { s3_prefix_ := "nb/", s3_key_delimiter := "/" } "") "/",
      pyEndsWith e.name "/" = true ∧
      s3_key_dir_to_model { s3_prefix_ := "nb/", s3_key_delimiter := "/" }
        { year := 2020, month := 1, day := 1, hour := 0, minute := 0, second := 0 } e =
        some { name := "d", path := "d/",
               last_modified := some { year := 2020, month := 1, day := 1, hour := 0,
                                       minute := 0, second := 0 },
               created := none, type := "directory", mimetype := none, writable := true,
               format := none, message := none } :=
  (c7_list_filters { s3_prefix_ := "nb/", s3_key_delimiter := "/" }
    { year := 2020, month := 1, day := 1, hour := 0, minute := 0, second := 0 }
    [("nb/d/x.ipynb", { last_modified := "t", content := "c" }),
     ("nb/n.ipynb", { last_modified := "2015-10-21T07:28:00.000Z", content := "c2" })] ""
    [{ name := "d", path := "d/",
       last_modified := some { year := 2020, month := 1, day := 1, hour := 0,
                               minute := 0, second := 0 },
       created := none, type := "directory", mimetype := none, writable := true,
       format := none, message := none }]
    [{ name := "n.ipynb", path := "n.ipynb",
       last_modified := some { year := 2015, month := 10, day := 21, hour := 7,
                               minute := 28, second := 0 },
       created := none, type := "notebook", mimetype := none, writable := true,
       format := none, message := none }]
    rfl rfl).1 _ (List.mem_singleton_self _)

/-- A directory-type save writes nothing in its store phase. -/
theorem save_write_directory (cfg : S3Config) (lm : String) (store : Store)
    (model : InModel) (path : String) (hd : model.type = some "directory") :
    save_write cfg lm store model path = Except.ok store := by
  obtain ⟨t, c, mg⟩ := model
  simp only at hd
  subst hd
  cases c <;> rfl

/-- C2 counterexample: a notebook save whose model carries a (host-set)
validation message succeeds and returns the re-fetched model with the
message attached, which differs from the plain re-fetched model with nil
content that the claim promises. -/
theorem c2_counterexample :
    (save { s3_prefix_ := "nb/", s3_key_delimiter := "/" }
      { year := 2020, month := 1, day := 1, hour := 0, minute := 0, second := 0 }
      "Wed, 21 Oct 2015 07:28:00 GMT" []
      { type := some "notebook", content := some "NB", message := some "warn" }
      "a.ipynb").1 =
      Except.ok { base := { name := "a.ipynb", path := "a.ipynb",
                            last_modified := some { year := 2015, month := 10, day := 21,
                                                    hour := 7, minute := 28, second := 0 },
                            created := none, type := "notebook", mimetype := none,
                            writable := true, format := none, message := some "warn" },
                  content := none } ∧
    get { s3_prefix_ := "nb/", s3_key_delimiter := "/" }
      { year := 2020, month := 1, day := 1, hour := 0, minute := 0, second := 0 }
      (save { s3_prefix_ := "nb/", s3_key_delimiter := "/" }
        { year := 2020, month := 1, day := 1, hour := 0, minute := 0, second := 0 }
        "Wed, 21 Oct 2015 07:28:00 GMT" []
        { type := some "notebook", content := some "NB", message := some "warn" }
        "a.ipynb").2 "a.ipynb" false none =
      Except.ok (some { base := { name := "a.ipynb", path := "a.ipynb",
                                  last_modified := some { year := 2015, month := 10, day := 21,
                                                          hour := 7, minute := 28, second := 0 },
                                  created := none, type := "notebook", mimetype := none,
                                  writable := true, format := none, message := none },
                        content := none }) ∧
    ({ base := { name := "a.ipynb", path := "a.ipynb",
                 last_modified := some { year := 2015, month := 10, day := 21, hour := 7,
                                         minute := 28, second := 0 },
                 created := none, type := "notebook", mimetype := none, writable := true,
                 format := none, message := some "warn" }, content := none } : Model) ≠
      { base := { name := "a.ipynb", path := "a.ipynb",
                  last_modified := some { year := 2015, month := 10, day := 21, hour := 7,
                                          minute := 28, second := 0 },
                  created := none, type := "notebook", mimetype := none, writable := true,
                  format := none, message := none }, content := none } := by
  exact ⟨rfl, rfl, by decide⟩

/-- C2 (amended): a save that succeeds returns the model re-fetched from the
post-write store via `get(path, content=False)`, with nil content; for
notebook saves a truthy validation message is additionally attached to the
returned copy; and a directory-type save leaves the store untouched. -/
theorem c2_save_returns_refetch (cfg : S3Config) (now : PyDateTime) (lm : String)
    (store : Store) (model : InModel) (path : String) (ret : Model) (store1 : Store)
    (h : save cfg now lm store model path = (Except.ok ret, store1)) :
    (∃ m, get cfg now store1 path false none = Except.ok (some m) ∧
      ret.content = none ∧
      (∀ s, (if model.type = some "notebook" then truthyMsg model.message else none) = some s →
        ret = { base := { m.base with message := some s }, content := none }) ∧
      ((if model.type = some "notebook" then truthyMsg model.message else none) = none →
        ret = { m with content := none })) ∧
    (model.type = some "directory" → store1 = store) := by
  unfold save at h
  split at h
  next e heq => simp at h
  next st1 heq =>
    have hdirpart : store1 = st1 → model.type = some "directory" → store1 = store := by
      intro hst hdir
      have hws := save_write_directory cfg lm store model path hdir
      rw [heq] at hws
      injection hws with hws1
      rw [hst, hws1]
    split at h
    next e2 heq2 => simp at h
    next heq2 => simp at h
    next m heq2 =>
      split at h
      next s heq3 =>
        simp only [Prod.mk.injEq, Except.ok.injEq] at h
        obtain ⟨h1, h2⟩ := h
        refine ⟨⟨m, by rw [← h2]; exact heq2, ?_, ?_, ?_⟩, hdirpart h2.symm⟩
        · rw [← h1]
        · intro s' hs'
          rw [heq3] at hs'
          injection hs' with hss
          subst hss
          exact h1.symm
        · intro hnone
          rw [heq3] at hnone
          cases hnone
      next heq3 =>
        simp only [Prod.mk.injEq, Except.ok.injEq] at h
        obtain ⟨h1, h2⟩ := h
        refine ⟨⟨m, by rw [← h2]; exact heq2, ?_, ?_, ?_⟩, hdirpart h2.symm⟩
        · rw [← h1]
        · intro s' hs'
          rw [heq3] at hs'
          cases hs'
        · intro _
          exact h1.symm

/-- C2 witness: a concrete succeeding notebook save (no validation message):
the returned value is exactly the re-fetched model with nil content. -/
theorem c2_save_returns_refetch_witness :
    ∃ m, get { s3_prefix_ := "nb/", s3_key_delimiter := "/" }
        { year := 2020, month := 1, day := 1, hour := 0, minute := 0, second := 0 }
        [("nb/a.ipynb", { last_modified := "Wed, 21 Oct 2015 07:28:00 GMT", content := "NB" })]
        "a.ipynb" false none = Except.ok (some m) ∧
      ({ base := { name := "a.ipynb", path := "a.ipynb",
                   last_modified := some { year := 2015, month := 10, day := 21, hour := 7,
                                           minute := 28, second := 0 },
                   created := none, type := "notebook", mimetype := none, writable := true,
                   format := none, message := none }, content := none } : Model) =
        { m with content := none } := by
  obtain ⟨⟨m, hg, hc, hsome, hnone⟩, hdir⟩ := c2_save_returns_refetch
    { s3_prefix_ := "nb/", s3_key_delimiter := "/" }
    { year := 2020, month := 1, day := 1, hour := 0, minute := 0, second := 0 }
    "Wed, 21 Oct 2015 07:28:00 GMT" []
    { type := some "notebook", content := some "NB", message := none } "a.ipynb"
    { base := { name := "a.ipynb", path := "a.ipynb",
                last_modified := some { year := 2015, month := 10, day := 21, hour := 7,
                                        minute := 28, second := 0 },
                created := none, type := "notebook", mimetype := none, writable := true,
                format := none, message := none }, content := none }
    [("nb/a.ipynb", { last_modified := "Wed, 21 Oct 2015 07:28:00 GMT", content := "NB" })]
    rfl
  exact ⟨m, hg, hnone rfl⟩

end S3nb
